import Mathlib

/-!
Verification of the moderation decision engine of a Telegram anti-spam bot
(src/main.py) against its natural-language specification.

The embedding is shallow: the oracle (LLM) responses, the chat-transport
calls and their failure modes are inputs of the model (an `Env` record);
an exception raised by an external call is modelled as `none` / a `false`
success flag.  Floats are modelled as rationals.  The handler
`handle_message` is translated statement by statement from the source,
returning the new in-process state, a trace of the external calls it made,
the consolidated action log of a spam incident, and the uncaught exception
if one propagated out of the handler.
-/

/-- One detected spam sign of a classifier verdict (`spam_signs` items). -/
structure SpamSign where
  type : String
  description : String
deriving DecidableEq, Repr

/-- The structured verdict the classifier oracle returns (parsed JSON). -/
structure Verdict where
  is_spam : Bool
  confidence : ℚ
  spam_signs : List SpamSign
  explanation : String
deriving DecidableEq, Repr

/-- Result dict of `is_image_spam` in the source. -/
structure ImageSpamResult where
  is_spam : Bool
  result : Option Verdict
deriving DecidableEq, Repr

/-- Text classification, src/main.py lines 61-143.  The argument is the
oracle response: `none` models any exception inside the `try` block
(network error, timeout, JSON that does not parse to the Verdict shape),
which the source catches, returning `False`. -/
def is_spam (oracle : Option Verdict) : Bool :=
  match oracle with
  | none => false
  | some result =>
      (result.is_spam && decide (result.confidence ≥ Rat.divInt 7 10)) ||
      (decide (result.spam_signs.length ≥ 2) && decide (result.confidence ≥ Rat.divInt 6 10))

/-- Image classification, src/main.py lines 146-218; same failure model. -/
def is_image_spam (oracle : Option Verdict) : ImageSpamResult :=
  match oracle with
  | none => { is_spam := false, result := none }
  | some result =>
      { is_spam :=
          (result.is_spam && decide (result.confidence ≥ Rat.divInt 7 10)) ||
          (decide (result.spam_signs.length ≥ 2) && decide (result.confidence ≥ Rat.divInt 6 10)),
        result := some result }

/-- Modelled from the spec: the decision rule as the spec words it, a pure
function of the triple (is_spam flag, confidence, number of signs). -/
def specDecisionRule (flag : Bool) (confidence : ℚ) (nSigns : Nat) : Bool :=
  (flag && decide (confidence ≥ Rat.divInt 7 10)) ||
  (decide (nSigns ≥ 2) && decide (confidence ≥ Rat.divInt 6 10))

/-- C1: both classifier paths collapse a verdict to the boolean
`(is_spam ∧ confidence ≥ 0.7) ∨ (|signs| ≥ 2 ∧ confidence ≥ 0.6)`, a pure
function of the triple (is_spam, confidence, |signs|); the three sample
verdicts of the spec evaluate as stated. -/
theorem C1_decision_rule :
    (∀ v : Verdict,
      is_spam (some v) = specDecisionRule v.is_spam v.confidence v.spam_signs.length ∧
      (is_image_spam (some v)).is_spam =
        specDecisionRule v.is_spam v.confidence v.spam_signs.length) ∧
    is_spam (some ⟨true, Rat.divInt 7 10, [], "e"⟩) = true ∧
    is_spam (some ⟨false, Rat.divInt 9 10, [⟨"a", "a"⟩, ⟨"b", "b"⟩, ⟨"c", "c"⟩], "e"⟩) = true ∧
    is_spam (some ⟨true, Rat.divInt 1 2, [], "e"⟩) = false := by
  refine ⟨fun v => ⟨rfl, rfl⟩, by decide, by decide, by decide⟩

/-! ## The Telegram-side data the handler reads -/

/-- Sender of a message (`message.from_user`). -/
structure User where
  id : Int
  username : Option String
  is_bot : Bool
deriving DecidableEq, Repr

/-- One entry of `message.photo` (a photo size variant). -/
structure PhotoSize where
  file_id : String
  file_size : Option Nat
deriving DecidableEq, Repr

/-- An inbound Telegram message, with exactly the attributes the handler
reads.  `photo = []` models both `photo is None` and an empty tuple. -/
structure Message where
  from_user : Option User
  chat_id : Int
  text : Option String
  caption : Option String
  message_id : Nat
  photo : List PhotoSize
  chat_type : String
deriving DecidableEq, Repr

/-- An update delivered to `handle_message` (`update.message` may be absent). -/
structure Update where
  message : Option Message
deriving DecidableEq, Repr

/-- Result of `context.bot.get_chat_member`: the two capability flags the
handler reads via `getattr` (defaulting to `False`). -/
structure ChatMember where
  can_delete_messages : Bool
  can_restrict_members : Bool
deriving DecidableEq, Repr

/-- The responses of the external world during one handler invocation.
`none` / `false` model the corresponding call raising an exception:
`textOracle`/`imageOracle` are the parsed oracle verdicts (already `none`
on malformed responses or timeouts), `download` the downloaded image
bytes, `member` the capability query. -/
structure Env where
  textOracle : Option Verdict
  imageOracle : Option Verdict
  download : Option (List Nat)
  member : Option ChatMember
  deleteOk : Bool
  sendNoticeOk : Bool
  banOk : Bool
deriving DecidableEq, Repr

/-- Configuration read from the environment at startup. -/
structure Config where
  BAN_FOR_IMAGE_SPAM : Bool
  MAX_IMAGE_SIZE_MB : ℚ
deriving DecidableEq, Repr

/-- One user's record in `safe_users.json`: `{'count': .., 'username': ..}`.
The defaultdict default is `{count := 0, username := none}`. -/
structure UserRecord where
  count : Nat
  username : Option String
deriving DecidableEq, Repr

/-- The in-process mutable state: the trust ledger `safe_messages_count`
and the per-chat context windows `recent_messages`, both defaultdicts
modelled as total functions. -/
structure BotState where
  safe_messages_count : String → UserRecord
  recent_messages : Int → List String

/-- The static chat allow-list, src/main.py line 221. -/
def allowed_chats : List Int := [-1001474293774, -1002051811264, -4684100667, -5111113304]

/-! ## Small helpers translated from individual expressions -/

/-- Python truthiness fallback on strings: `a or b` where `a` is an
optional string (`None` and `''` are falsy). -/
def orElseStr (a : Option String) (b : String) : String :=
  match a with
  | none => b
  | some s => if s = "" then b else s

/-- `message.text or message.caption or ''` (line 231). -/
def effectiveText (m : Message) : String :=
  orElseStr m.text (orElseStr m.caption "")

/-- `deque(maxlen=cap).append`: append, evicting the oldest entry past
capacity (line 54, capacity 5). -/
def dequeAppend (cap : Nat) (w : List String) (t : String) : List String :=
  if cap < (w ++ [t]).length then (w ++ [t]).drop ((w ++ [t]).length - cap) else w ++ [t]

/-- `if message_text: recent_messages[chat_id].append(message_text)`
(lines 337-338) as a state transformer. -/
def appendText (st : BotState) (chat_id : Int) (t : String) : BotState :=
  if t = "" then st
  else { st with recent_messages :=
          fun c => if c = chat_id then dequeAppend 5 (st.recent_messages c) t
                   else st.recent_messages c }

/-- `file_size_mb = (photo.file_size or 0) / (1024 * 1024)` for the
largest photo size `photo = message.photo[-1]` (lines 252-253). -/
def sizeMB (m : Message) : ℚ :=
  Rat.divInt ((m.photo.getLastD ⟨"", none⟩).file_size.getD 0 : Int) (1024 * 1024)

/-- The collapsed image verdict the handler ends up with (lines 251-263):
`false` when there is no photo, when the size ceiling skips the analysis,
or when the download raises; otherwise the result of `is_image_spam`. -/
def imageFlag (cfg : Config) (env : Env) (m : Message) : Bool :=
  if m.photo.isEmpty then false
  else if cfg.MAX_IMAGE_SIZE_MB < sizeMB m then false
  else match env.download with
       | none => false
       | some _ => (is_image_spam env.imageOracle).is_spam

/-- `str.strip()`: drop leading and trailing whitespace (structurally, so
that it evaluates inside the kernel). -/
def pyStrip (s : String) : String :=
  ⟨((s.data.dropWhile Char.isWhitespace).reverse.dropWhile Char.isWhitespace).reverse⟩

/-- The collapsed text verdict (lines 269-270): `is_spam` is consulted
only when the stripped text is non-empty (`has_text`, lines 235, 269). -/
def textFlag (env : Env) (m : Message) : Bool :=
  if pyStrip (effectiveText m) = "" then false else is_spam env.textOracle

/-- `should_ban` as accumulated by lines 248, 263-264 and 271-272. -/
def shouldBan (cfg : Config) (env : Env) (m : Message) : Bool :=
  (imageFlag cfg env m && cfg.BAN_FOR_IMAGE_SPAM) || textFlag env m

/-! ## The handler as a state/trace function -/

/-- External calls the handler makes, tagged with the sender where the
source passes it along. -/
inductive Event where
  | oracleTextCall (user_id : String)
  | oracleImageCall (user_id : String)
  | getFileCall (user_id : String)
  | deleteAttempt
  | banAttempt
  | noticeNoDeletePermission
deriving DecidableEq, Repr

/-- Entries of the consolidated `action_log` of a spam incident. -/
inductive LogEntry where
  | deleted
  | failedDelete
  | noPermissionToDelete
  | banned
  | failedBan
  | noPermissionToBan
  | notBannedImageOnly
deriving DecidableEq, Repr

/-- What one `handle_message` invocation produced: the new state, the
trace of external calls, the action log when a spam incident was handled,
and the uncaught exception when one propagated out of the handler. -/
structure HandleResult where
  state : BotState
  events : List Event
  actionLog : Option (List LogEntry)
  exc : Option String

/-- `update_safe_messages_count` returns both the mutated ledger and the
snapshot handed to `save_safe_users` (lines 343-346: save is called after
the mutation, so both coincide). -/
structure UpdateResult where
  ledger : String → UserRecord
  saved : String → UserRecord

/-- Trust-ledger update, src/main.py lines 343-346. -/
def update_safe_messages_count (ledger : String → UserRecord)
    (user_id : String) (username : Option String) : UpdateResult :=
  let ledger2 := fun k =>
    if k = user_id then { count := (ledger user_id).count + 1, username := username }
    else ledger k
  { ledger := ledger2, saved := ledger2 }

/-- The ban step, lines 316-329: attempted only with `should_ban` and the
restrict capability; a failure is caught and logged. -/
def banStep (env : Env) (should_ban can_restrict : Bool) : List LogEntry × List Event :=
  if should_ban && can_restrict then
    if env.banOk then ([LogEntry.banned], [Event.banAttempt])
    else ([LogEntry.failedBan], [Event.banAttempt])
  else if should_ban && !can_restrict then ([LogEntry.noPermissionToBan], [])
  else ([LogEntry.notBannedImageOnly], [])

/-- Spam-incident handling, lines 283-331.  `get_chat_member` (line 284)
and the missing-delete-permission notice (line 313) are outside any
`try`, so their failures propagate; the delete (304-311) and ban
(317-324) attempts are each wrapped in `try`/`except`.  A successful
delete replaces `message_text` by the placeholder before the context
window append (line 308). -/
def spamActions (env : Env) (st : BotState) (chat_id : Int) (message_text : String)
    (should_ban : Bool) (preEvents : List Event) : HandleResult :=
  match env.member with
  | none => { state := st, events := preEvents, actionLog := none,
              exc := some "get_chat_member raised" }
  | some bot_member =>
    let can_delete := bot_member.can_delete_messages
    let can_restrict := bot_member.can_restrict_members
    if can_delete then
      let step :=
        if env.deleteOk then ([LogEntry.deleted], "here was a spam message")
        else ([LogEntry.failedDelete], message_text)
      let ban := banStep env should_ban can_restrict
      { state := appendText st chat_id step.2,
        events := preEvents ++ [Event.deleteAttempt] ++ ban.2,
        actionLog := some (step.1 ++ ban.1),
        exc := none }
    else
      if env.sendNoticeOk then
        let ban := banStep env should_ban can_restrict
        { state := appendText st chat_id message_text,
          events := preEvents ++ [Event.noticeNoDeletePermission] ++ ban.2,
          actionLog := some ([LogEntry.noPermissionToDelete] ++ ban.1),
          exc := none }
      else
        { state := st, events := preEvents ++ [Event.noticeNoDeletePermission],
          actionLog := none, exc := some "send_message raised" }

/-- The external calls the evaluation branch makes before any moderation
action: the `get_file` download attempt (entered when a photo passes the
size ceiling, line 259), the image-oracle call (line 261, reached only
when the download returned bytes), and the text-oracle call (line 270,
made when the stripped text is non-empty). -/
def evalEvents (cfg : Config) (env : Env) (message : Message) (user_id : String) :
    List Event :=
  (if !message.photo.isEmpty && !(decide (cfg.MAX_IMAGE_SIZE_MB < sizeMB message)) then
    [Event.getFileCall user_id] else []) ++
  (if !message.photo.isEmpty && !(decide (cfg.MAX_IMAGE_SIZE_MB < sizeMB message))
      && env.download.isSome then
    [Event.oracleImageCall user_id] else []) ++
  (if !(decide (pyStrip (effectiveText message) = "")) then [Event.oracleTextCall user_id] else [])

/-- The evaluation branch, lines 242-338 (entered when the sender's
`safe_count` is below 2): runs the image and text classifications
(`evalEvents` is the trace of those external calls), then either handles
the spam incident or records the post as safe, and finally appends the
(possibly replaced) text to the context window. -/
def evaluate (cfg : Config) (st : BotState) (env : Env)
    (message : Message) (from_user : User) : HandleResult :=
  let user_id := toString from_user.id
  let chat_id := message.chat_id
  let message_text := effectiveText message
  let preEvents := evalEvents cfg env message user_id
  let text_is_spam := textFlag env message
  let image_is_spam := imageFlag cfg env message
  let should_ban := shouldBan cfg env message
  if text_is_spam || image_is_spam then
    spamActions env st chat_id message_text should_ban preEvents
  else
    let r := update_safe_messages_count st.safe_messages_count user_id from_user.username
    let st1 : BotState := { safe_messages_count := r.ledger, recent_messages := st.recent_messages }
    { state := appendText st1 chat_id message_text,
      events := preEvents, actionLog := none, exc := none }

/-- The message handler, src/main.py lines 223-341, as a function of the
configuration, the in-process state, the external world's responses and
the inbound update. -/
def handle_message (cfg : Config) (st : BotState) (env : Env) (update : Update) :
    HandleResult :=
  match update.message with
  | none => { state := st, events := [], actionLog := none, exc := none }
  | some message =>
    match message.from_user with
    | none => { state := st, events := [], actionLog := none, exc := none }
    | some from_user =>
      if !(allowed_chats.contains message.chat_id) then
        { state := st, events := [], actionLog := none, exc := none }
      else if (message.chat_type == "group" || message.chat_type == "supergroup")
              && !from_user.is_bot then
        if (st.safe_messages_count (toString from_user.id)).count < 2 then
          evaluate cfg st env message from_user
        else
          { state := appendText st message.chat_id (effectiveText message),
            events := [], actionLog := none, exc := none }
      else
        { state := st, events := [], actionLog := none, exc := none }

/-- A run of the bot over a sequence of inbound updates (the framework
catches an exception escaping one handler invocation and moves on). -/
def runBot (cfg : Config) (st : BotState) :
    List (Env × Update) → BotState × List Event
  | [] => (st, [])
  | (env, up) :: rest =>
    let r := handle_message cfg st env up
    let rec2 := runBot cfg r.state rest
    (rec2.1, r.events ++ rec2.2)

/-! ## Context-window lemmas -/

/-- The last `n` entries of a list. -/
def lastN {α : Type _} (n : Nat) (l : List α) : List α := l.drop (l.length - n)

theorem lastN_length {α : Type _} (n : Nat) (l : List α) : (lastN n l).length ≤ n := by
  unfold lastN
  simp only [List.length_drop]
  omega

theorem dequeAppend_eq_lastN (w : List String) (t : String) :
    dequeAppend 5 w t = lastN 5 (w ++ [t]) := by
  unfold dequeAppend lastN
  by_cases h : 5 < (w ++ [t]).length
  · rw [if_pos h]
  · rw [if_neg h, Nat.sub_eq_zero_of_le (Nat.le_of_not_lt h), List.drop_zero]

theorem lastN_drop {α : Type _} (n k : Nat) (s : List α) (h : k + n ≤ s.length) :
    lastN n (s.drop k) = lastN n s := by
  unfold lastN
  rw [List.drop_drop]
  congr 1
  simp only [List.length_drop]
  omega

theorem lastN_append_lastN {α : Type _} (n : Nat) (l r : List α) :
    lastN n (lastN n l ++ r) = lastN n (l ++ r) := by
  by_cases h : n ≤ l.length
  · have h1 : l.length - n ≤ l.length := Nat.sub_le _ _
    have : lastN n l ++ r = (l ++ r).drop (l.length - n) := by
      unfold lastN
      rw [List.drop_append_of_le_length h1]
    rw [this, lastN_drop]
    simp only [List.length_append]
    omega
  · have : lastN n l = l := by
      unfold lastN
      rw [Nat.sub_eq_zero_of_le (Nat.le_of_not_le h), List.drop_zero]
    rw [this]

theorem foldl_dequeAppend (ts : List String) : ∀ w : List String, w.length ≤ 5 →
    ts.foldl (dequeAppend 5) w = lastN 5 (w ++ ts) := by
  induction ts with
  | nil =>
    intro w hw
    simp only [List.foldl_nil, List.append_nil]
    unfold lastN
    rw [Nat.sub_eq_zero_of_le hw, List.drop_zero]
  | cons t rest ih =>
    intro w hw
    rw [List.foldl_cons, ih _ (by rw [dequeAppend_eq_lastN]; exact lastN_length 5 _)]
    rw [dequeAppend_eq_lastN, lastN_append_lastN]
    simp [List.append_assoc]

/-- C6: starting from the empty window, any sequence of appends leaves at
most 5 entries, namely exactly the 5 most recently appended texts in
arrival order; and each single append preserves the capacity bound. -/
theorem C6_window_capacity :
    (∀ ts : List String,
      (ts.foldl (dequeAppend 5) []).length ≤ 5 ∧
      ts.foldl (dequeAppend 5) [] = ts.drop (ts.length - 5)) ∧
    (∀ (w : List String) (t : String), w.length ≤ 5 → (dequeAppend 5 w t).length ≤ 5) := by
  constructor
  · intro ts
    have h := foldl_dequeAppend ts [] (by simp)
    simp only [List.nil_append] at h
    exact ⟨by rw [h]; exact lastN_length 5 ts, h⟩
  · intro w t _
    rw [dequeAppend_eq_lastN]
    exact lastN_length 5 _

/-- Witness for C6 at concrete inputs. -/
theorem C6_window_capacity_witness :
    ["a", "b", "c", "d", "e", "f", "g"].foldl (dequeAppend 5) [] = ["c", "d", "e", "f", "g"] ∧
    (dequeAppend 5 ["a", "b", "c", "d", "e"] "f").length ≤ 5 := by
  refine ⟨(C6_window_capacity.1 ["a", "b", "c", "d", "e", "f", "g"]).2.trans (by decide),
    C6_window_capacity.2 ["a", "b", "c", "d", "e"] "f" (by decide)⟩

/-! ## Structural lemmas about the handler -/

theorem mem_evalEvents {cfg : Config} {env : Env} {message : Message} {user_id : String}
    {e : Event} (h : e ∈ evalEvents cfg env message user_id) :
    e = Event.getFileCall user_id ∨ e = Event.oracleImageCall user_id ∨
    e = Event.oracleTextCall user_id := by
  unfold evalEvents at h
  split_ifs at h <;> simp_all <;> tauto

theorem banStep_events (env : Env) (sb cr : Bool) :
    (banStep env sb cr).2 = [Event.banAttempt] ∨ (banStep env sb cr).2 = [] := by
  unfold banStep
  split_ifs <;> simp

theorem mem_spamActions_events {env : Env} {st : BotState} {chat_id : Int}
    {mt : String} {sb : Bool} {pre : List Event} {e : Event}
    (h : e ∈ (spamActions env st chat_id mt sb pre).events) :
    e ∈ pre ∨ e = Event.deleteAttempt ∨ e = Event.banAttempt ∨
      e = Event.noticeNoDeletePermission := by
  unfold spamActions at h
  cases henv : env.member with
  | none => rw [henv] at h; exact Or.inl h
  | some mem =>
    rw [henv] at h
    rcases banStep_events env sb mem.can_restrict_members with hb | hb <;>
    by_cases hcd : mem.can_delete_messages = true <;>
    by_cases hdo : env.deleteOk = true <;>
    by_cases hsn : env.sendNoticeOk = true <;>
    simp [hcd, hdo, hsn, hb] at h <;>
    tauto

theorem pre_subset_spamActions_events {env : Env} {st : BotState} {chat_id : Int}
    {mt : String} {sb : Bool} {pre : List Event} {e : Event} (h : e ∈ pre) :
    e ∈ (spamActions env st chat_id mt sb pre).events := by
  unfold spamActions
  cases henv : env.member with
  | none => exact h
  | some mem =>
    by_cases hcd : mem.can_delete_messages = true <;>
    by_cases hsn : env.sendNoticeOk = true <;>
    simp [hcd, hsn, h]

/-- Exhaustive description of the handler's control flow. -/
theorem handle_message_cases (cfg : Config) (st : BotState) (env : Env) (up : Update) :
    handle_message cfg st env up = { state := st, events := [], actionLog := none, exc := none } ∨
    (∃ message from_user,
      up.message = some message ∧ message.from_user = some from_user ∧
      message.chat_id ∈ allowed_chats ∧
      (message.chat_type = "group" ∨ message.chat_type = "supergroup") ∧
      from_user.is_bot = false ∧
      (((st.safe_messages_count (toString from_user.id)).count < 2 ∧
        handle_message cfg st env up = evaluate cfg st env message from_user) ∨
       (¬ (st.safe_messages_count (toString from_user.id)).count < 2 ∧
        handle_message cfg st env up =
          { state := appendText st message.chat_id (effectiveText message),
            events := [], actionLog := none, exc := none }))) := by
  obtain ⟨msg⟩ := up
  cases msg with
  | none => left; rfl
  | some message =>
    obtain ⟨fu, chat_id, text, caption, mid, photo, ctype⟩ := message
    cases fu with
    | none => left; rfl
    | some from_user =>
      by_cases h1 : chat_id ∈ allowed_chats
      · by_cases h3 : from_user.is_bot = true
        · left; simp [handle_message, h1, h3]
        · by_cases h2 : ctype = "group" ∨ ctype = "supergroup"
          · by_cases h4 : (st.safe_messages_count (toString from_user.id)).count < 2
            · right
              refine ⟨_, _, rfl, rfl, h1, h2, by simp [h3], Or.inl ⟨h4, ?_⟩⟩
              rcases h2 with h2 | h2 <;> subst h2 <;> simp [handle_message, h1, h3, h4]
            · right
              refine ⟨_, _, rfl, rfl, h1, h2, by simp [h3], Or.inr ⟨h4, ?_⟩⟩
              rcases h2 with h2 | h2 <;> subst h2 <;> simp [handle_message, h1, h3, h4]
          · left
            have hg : ctype ≠ "group" := fun hh => h2 (Or.inl hh)
            have hs : ctype ≠ "supergroup" := fun hh => h2 (Or.inr hh)
            simp [handle_message, h1, h3, hg, hs]
      · left
        simp [handle_message, h1]

theorem textFlag_false {env : Env} (ht : is_spam env.textOracle = false) (m : Message) :
    textFlag env m = false := by
  unfold textFlag
  split_ifs <;> simp [ht]

theorem imageFlag_false {cfg : Config} {env : Env}
    (hi : (is_image_spam env.imageOracle).is_spam = false) (m : Message) :
    imageFlag cfg env m = false := by
  unfold imageFlag
  split_ifs
  · rfl
  · rfl
  · cases env.download <;> simp [hi]

/-- No moderation action of any kind was taken by the handler. -/
def takesNoAction (r : HandleResult) : Prop :=
  Event.deleteAttempt ∉ r.events ∧ Event.banAttempt ∉ r.events ∧
  Event.noticeNoDeletePermission ∉ r.events ∧ r.actionLog = none

theorem noSpam_noAction (cfg : Config) (st : BotState) (env : Env) (up : Update)
    (ht : is_spam env.textOracle = false)
    (hi : (is_image_spam env.imageOracle).is_spam = false) :
    takesNoAction (handle_message cfg st env up) := by
  rcases handle_message_cases cfg st env up with
    h | ⟨m, u, _, _, _, _, _, (⟨_, heq⟩ | ⟨_, heq⟩)⟩
  · rw [h]
    exact ⟨by simp, by simp, by simp, rfl⟩
  · rw [heq]
    unfold evaluate
    rw [textFlag_false ht, imageFlag_false hi]
    simp only [Bool.or_self, Bool.false_eq_true, if_false]
    refine ⟨?_, ?_, ?_, rfl⟩ <;>
      intro hmem <;> rcases mem_evalEvents hmem with h | h | h <;> simp_all
  · rw [heq]
    exact ⟨by simp, by simp, by simp, rfl⟩

/-- C3: a failed classifier call (raise, timeout, or a response that does
not parse to the Verdict shape, all modelled as a `none` oracle response)
yields not-spam for that modality, and when the other modality does not
flag spam either, the handler takes no moderation action at all. -/
theorem C3_fail_closed :
    is_spam none = false ∧
    (is_image_spam none).is_spam = false ∧ (is_image_spam none).result = none ∧
    (∀ (cfg : Config) (st : BotState) (env : Env) (up : Update),
      env.textOracle = none → (is_image_spam env.imageOracle).is_spam = false →
      takesNoAction (handle_message cfg st env up)) ∧
    (∀ (cfg : Config) (st : BotState) (env : Env) (up : Update),
      env.imageOracle = none → is_spam env.textOracle = false →
      takesNoAction (handle_message cfg st env up)) := by
  refine ⟨rfl, rfl, rfl, ?_, ?_⟩
  · intro cfg st env up ht hi
    exact noSpam_noAction cfg st env up (by rw [ht]; rfl) hi
  · intro cfg st env up hi ht
    exact noSpam_noAction cfg st env up ht (by rw [hi]; rfl)

/-! ## Sample concrete inputs used by the witnesses -/

def sampleUser : User := ⟨42, some "alice", false⟩

def sampleMsg : Message := ⟨some sampleUser, -4684100667, some "hello there", none, 1, [], "group"⟩

def sampleState : BotState := ⟨fun _ => ⟨0, none⟩, fun _ => []⟩

def sampleCfg : Config := ⟨false, Rat.divInt 5 1⟩

def envAllFail : Env := ⟨none, none, none, none, true, true, true⟩

/-- Witness for C3 at a concrete failing-oracle input. -/
theorem C3_fail_closed_witness :
    takesNoAction (handle_message sampleCfg sampleState envAllFail ⟨some sampleMsg⟩) :=
  C3_fail_closed.2.2.2.1 sampleCfg sampleState envAllFail ⟨some sampleMsg⟩ rfl rfl

/-- C9: `update_safe_messages_count` increments exactly the supplied
user's count by 1, overwrites the cached username, leaves every other
record unchanged, hands the full mutated ledger to `save_safe_users`, and
applied twice increments by 2 (not idempotent). -/
theorem C9_record_safe :
    ∀ (ledger : String → UserRecord) (user_id : String) (username : Option String),
      ((update_safe_messages_count ledger user_id username).ledger user_id).count
        = (ledger user_id).count + 1 ∧
      ((update_safe_messages_count ledger user_id username).ledger user_id).username
        = username ∧
      (update_safe_messages_count ledger user_id username).saved
        = (update_safe_messages_count ledger user_id username).ledger ∧
      (∀ k, k ≠ user_id → (update_safe_messages_count ledger user_id username).ledger k
        = ledger k) ∧
      ((update_safe_messages_count
          (update_safe_messages_count ledger user_id username).ledger
          user_id username).ledger user_id).count = (ledger user_id).count + 2 := by
  intro ledger user_id username
  refine ⟨by simp [update_safe_messages_count], by simp [update_safe_messages_count], rfl,
    fun k hk => by simp [update_safe_messages_count, hk],
    by simp [update_safe_messages_count]⟩

/-- Witness for C9 at a concrete ledger. -/
theorem C9_record_safe_witness :
    ((update_safe_messages_count (fun _ => ⟨0, none⟩) "7" (some "alice")).ledger "7").count = 1 ∧
    (update_safe_messages_count (fun _ => ⟨0, none⟩) "7" (some "alice")).ledger "9" = ⟨0, none⟩ := by
  obtain ⟨h1, _, _, h4, _⟩ := C9_record_safe (fun _ => ⟨0, none⟩) "7" (some "alice")
  exact ⟨h1, h4 "9" (by decide)⟩

/-! ## Trust-gate lemmas (C2) -/

theorem appendText_ledger (st : BotState) (c : Int) (t : String) :
    (appendText st c t).safe_messages_count = st.safe_messages_count := by
  unfold appendText
  split_ifs <;> rfl

theorem spamActions_ledger (env : Env) (st : BotState) (chat_id : Int)
    (mt : String) (sb : Bool) (pre : List Event) :
    (spamActions env st chat_id mt sb pre).state.safe_messages_count
      = st.safe_messages_count := by
  unfold spamActions
  cases env.member with
  | none => rfl
  | some mem =>
    by_cases hcd : mem.can_delete_messages = true <;>
      split_ifs <;> simp [hcd, appendText_ledger]

theorem mem_evaluate_events {cfg : Config} {st : BotState} {env : Env}
    {m : Message} {u : User} {e : Event}
    (h : e ∈ (evaluate cfg st env m u).events) :
    e ∈ evalEvents cfg env m (toString u.id) ∨ e = Event.deleteAttempt ∨
      e = Event.banAttempt ∨ e = Event.noticeNoDeletePermission := by
  unfold evaluate at h
  by_cases hg : (textFlag env m || imageFlag cfg env m) = true
  · simp only [hg, if_true] at h
    exact mem_spamActions_events h
  · simp only [hg, Bool.false_eq_true, if_false] at h
    exact Or.inl h

theorem evalEvents_subset_evaluate {cfg : Config} {st : BotState} {env : Env}
    {m : Message} {u : User} {e : Event}
    (h : e ∈ evalEvents cfg env m (toString u.id)) :
    e ∈ (evaluate cfg st env m u).events := by
  unfold evaluate
  by_cases hg : (textFlag env m || imageFlag cfg env m) = true
  · simp only [hg, if_true]
    exact pre_subset_spamActions_events h
  · simp only [hg, Bool.false_eq_true, if_false]
    exact h

theorem oracleText_mem_evalEvents {cfg : Config} {env : Env} {m : Message} {uid : String}
    (h : pyStrip (effectiveText m) ≠ "") :
    Event.oracleTextCall uid ∈ evalEvents cfg env m uid := by
  simp [evalEvents, h]

theorem handle_oracle_lt_two {cfg : Config} {st : BotState} {env : Env} {up : Update}
    {uid : String}
    (h : Event.oracleTextCall uid ∈ (handle_message cfg st env up).events ∨
         Event.oracleImageCall uid ∈ (handle_message cfg st env up).events) :
    (st.safe_messages_count uid).count < 2 := by
  rcases handle_message_cases cfg st env up with
    he | ⟨m, u, _, _, _, _, _, (⟨hlt, heq⟩ | ⟨_, heq⟩)⟩
  · rw [he] at h
    simp at h
  · rw [heq] at h
    have huid : uid = toString u.id := by
      rcases h with h | h <;> rcases mem_evaluate_events h with hh | hh | hh | hh <;>
        first
          | (rcases mem_evalEvents hh with h3 | h3 | h3 <;> cases h3 <;> rfl)
          | cases hh
    rw [huid]
    exact hlt
  · rw [heq] at h
    simp at h

theorem handle_count_mono (cfg : Config) (st : BotState) (env : Env) (up : Update)
    (uid : String) :
    (st.safe_messages_count uid).count ≤
      ((handle_message cfg st env up).state.safe_messages_count uid).count := by
  rcases handle_message_cases cfg st env up with
    he | ⟨m, u, _, _, _, _, _, (⟨_, heq⟩ | ⟨_, heq⟩)⟩
  · rw [he]
  · rw [heq]
    unfold evaluate
    by_cases hg : (textFlag env m || imageFlag cfg env m) = true
    · simp only [hg, if_true, spamActions_ledger]
      exact Nat.le_refl _
    · simp only [hg, Bool.false_eq_true, if_false, appendText_ledger]
      by_cases hu : uid = toString u.id
      · simp [update_safe_messages_count, hu]
      · simp [update_safe_messages_count, hu]
  · rw [heq]
    simp [appendText_ledger]

theorem runBot_count_mono (cfg : Config) (uid : String) :
    ∀ (steps : List (Env × Update)) (st : BotState),
      (st.safe_messages_count uid).count ≤
        ((runBot cfg st steps).1.safe_messages_count uid).count := by
  intro steps
  induction steps with
  | nil => intro st; exact Nat.le_refl _
  | cons p rest ih =>
    intro st
    obtain ⟨env, up⟩ := p
    exact Nat.le_trans (handle_count_mono cfg st env up uid) (ih _)

theorem runBot_no_oracle (cfg : Config) (uid : String) :
    ∀ (steps : List (Env × Update)) (st : BotState),
      2 ≤ (st.safe_messages_count uid).count →
      Event.oracleTextCall uid ∉ (runBot cfg st steps).2 ∧
      Event.oracleImageCall uid ∉ (runBot cfg st steps).2 := by
  intro steps
  induction steps with
  | nil => intro st _; simp [runBot]
  | cons p rest ih =>
    intro st h2
    obtain ⟨env, up⟩ := p
    have hstep : ∀ e, (e = Event.oracleTextCall uid ∨ e = Event.oracleImageCall uid) →
        e ∉ (handle_message cfg st env up).events := by
      intro e hor hmem
      have hlt : (st.safe_messages_count uid).count < 2 := by
        rcases hor with h | h <;> subst h
        · exact handle_oracle_lt_two (Or.inl hmem)
        · exact handle_oracle_lt_two (Or.inr hmem)
      omega
    have h2' : 2 ≤ (((handle_message cfg st env up).state).safe_messages_count uid).count :=
      Nat.le_trans h2 (handle_count_mono cfg st env up uid)
    have hrest := ih (handle_message cfg st env up).state h2'
    constructor <;>
      · simp only [runBot, List.mem_append]
        rintro (hmem | hmem)
        · exact hstep _ (by tauto) hmem
        · first
            | exact hrest.1 hmem
            | exact hrest.2 hmem

/-- C2: an oracle call (text or image) for a user happens only while that
user's `safe_count` is strictly below 2; once the count is at least 2 no
update in any subsequent run triggers an oracle call for that user; and
conversely an eligible (count < 2) non-bot sender of an allow-listed
group post with text does get submitted to the text oracle. -/
theorem C2_eligibility_gate :
    (∀ (cfg : Config) (st : BotState) (env : Env) (up : Update) (uid : String),
      (Event.oracleTextCall uid ∈ (handle_message cfg st env up).events ∨
       Event.oracleImageCall uid ∈ (handle_message cfg st env up).events) →
      (st.safe_messages_count uid).count < 2) ∧
    (∀ (cfg : Config) (st : BotState) (steps : List (Env × Update)) (uid : String),
      2 ≤ (st.safe_messages_count uid).count →
      Event.oracleTextCall uid ∉ (runBot cfg st steps).2 ∧
      Event.oracleImageCall uid ∉ (runBot cfg st steps).2) ∧
    (∀ (cfg : Config) (st : BotState) (env : Env) (m : Message) (u : User),
      m.from_user = some u → m.chat_id ∈ allowed_chats →
      (m.chat_type = "group" ∨ m.chat_type = "supergroup") → u.is_bot = false →
      (st.safe_messages_count (toString u.id)).count < 2 →
      pyStrip (effectiveText m) ≠ "" →
      Event.oracleTextCall (toString u.id) ∈
        (handle_message cfg st env ⟨some m⟩).events) := by
  refine ⟨fun cfg st env up uid h => handle_oracle_lt_two h,
    fun cfg st steps uid h => runBot_no_oracle cfg uid steps st h,
    ?_⟩
  intro cfg st env m u hfu hmem hg hbot hlt htext
  obtain ⟨fu, chat_id, text, caption, mid, photo, ctype⟩ := m
  have hfu' : fu = some u := hfu
  subst hfu'
  have heval : handle_message cfg st env ⟨some ⟨some u, chat_id, text, caption, mid, photo, ctype⟩⟩
      = evaluate cfg st env ⟨some u, chat_id, text, caption, mid, photo, ctype⟩ u := by
    rcases hg with hg | hg <;> simp only at hg <;> subst hg <;>
      simp [handle_message, hmem, hbot, hlt]
  rw [heval]
  exact evalEvents_subset_evaluate (oracleText_mem_evalEvents htext)

/-- Witness for C2: concrete eligible sender gets the oracle call; a
concrete trusted (count = 2) user never does, over a concrete run. -/
theorem C2_eligibility_gate_witness :
    Event.oracleTextCall (toString sampleUser.id) ∈
      (handle_message sampleCfg sampleState envAllFail ⟨some sampleMsg⟩).events ∧
    Event.oracleTextCall "42" ∉
      (runBot sampleCfg ⟨fun _ => ⟨2, none⟩, fun _ => []⟩
        [(envAllFail, ⟨some sampleMsg⟩)]).2 := by
  constructor
  · exact C2_eligibility_gate.2.2 sampleCfg sampleState envAllFail sampleMsg sampleUser
      rfl (by decide) (Or.inl rfl) rfl (by decide) (by decide)
  · exact (C2_eligibility_gate.2.1 sampleCfg ⟨fun _ => ⟨2, none⟩, fun _ => []⟩
      [(envAllFail, ⟨some sampleMsg⟩)] "42" (by decide)).1

/-! ## Evaluation-path lemmas (C7, C8, C10) -/

theorem handle_eval {cfg : Config} {st : BotState} {env : Env} {m : Message} {u : User}
    (hfu : m.from_user = some u) (hmem : m.chat_id ∈ allowed_chats)
    (hg : m.chat_type = "group" ∨ m.chat_type = "supergroup") (hbot : u.is_bot = false)
    (hlt : (st.safe_messages_count (toString u.id)).count < 2) :
    handle_message cfg st env ⟨some m⟩ = evaluate cfg st env m u := by
  obtain ⟨fu, chat_id, text, caption, mid, photo, ctype⟩ := m
  have hfu' : fu = some u := hfu
  subst hfu'
  rcases hg with hg | hg <;> simp only at hg <;> subst hg <;>
    simp [handle_message, hmem, hbot, hlt]

theorem shouldBan_spam {cfg : Config} {env : Env} {m : Message}
    (h : shouldBan cfg env m = true) : (textFlag env m || imageFlag cfg env m) = true := by
  revert h
  unfold shouldBan
  cases textFlag env m <;> cases imageFlag cfg env m <;> simp

theorem banAttempt_banStep (env : Env) (sb cr : Bool) :
    Event.banAttempt ∈ (banStep env sb cr).2 ↔ (sb = true ∧ cr = true) := by
  unfold banStep
  split_ifs <;> by_cases hb : env.banOk = true <;> simp_all

theorem not_action_mem_evalEvents (cfg : Config) (env : Env) (m : Message) (uid : String) :
    Event.deleteAttempt ∉ evalEvents cfg env m uid ∧
    Event.banAttempt ∉ evalEvents cfg env m uid ∧
    Event.noticeNoDeletePermission ∉ evalEvents cfg env m uid := by
  refine ⟨?_, ?_, ?_⟩ <;> intro h <;> rcases mem_evalEvents h with h | h | h <;> simp_all

theorem banAttempt_spamActions {env : Env} {st : BotState} {chat_id : Int}
    {mt : String} {sb : Bool} {pre : List Event} {mem : ChatMember}
    (hm : env.member = some mem)
    (hn : mem.can_delete_messages = false → env.sendNoticeOk = true)
    (hpre : Event.banAttempt ∉ pre) :
    (Event.banAttempt ∈ (spamActions env st chat_id mt sb pre).events ↔
      (sb = true ∧ mem.can_restrict_members = true)) := by
  unfold spamActions
  rw [hm]
  have hb := banAttempt_banStep env sb mem.can_restrict_members
  by_cases hcd : mem.can_delete_messages = true
  · by_cases hdo : env.deleteOk = true <;>
      simp [hcd, hdo, hpre, hb, List.mem_append]
  · have hsn : env.sendNoticeOk = true := hn (by simpa using hcd)
    simp [hcd, hsn, hpre, hb, List.mem_append]

/-- C7: on the evaluation path (capability query answered and, when the
delete permission is missing, the notice delivered), a ban is attempted
exactly when `should_ban ∧ can_restrict` holds; `should_ban` equals
`text_is_spam ∨ (image_is_spam ∧ BAN_FOR_IMAGE_SPAM)`; hence image-only
spam with the image-ban policy disabled never leads to a ban attempt. -/
theorem C7_ban_policy :
    ∀ (cfg : Config) (st : BotState) (env : Env) (m : Message) (u : User) (mem : ChatMember),
      m.from_user = some u → m.chat_id ∈ allowed_chats →
      (m.chat_type = "group" ∨ m.chat_type = "supergroup") → u.is_bot = false →
      (st.safe_messages_count (toString u.id)).count < 2 →
      env.member = some mem →
      (mem.can_delete_messages = false → env.sendNoticeOk = true) →
      ((Event.banAttempt ∈ (handle_message cfg st env ⟨some m⟩).events ↔
        (shouldBan cfg env m = true ∧ mem.can_restrict_members = true)) ∧
       shouldBan cfg env m = (textFlag env m || (imageFlag cfg env m && cfg.BAN_FOR_IMAGE_SPAM)) ∧
       (cfg.BAN_FOR_IMAGE_SPAM = false → textFlag env m = false →
        Event.banAttempt ∉ (handle_message cfg st env ⟨some m⟩).events)) := by
  intro cfg st env m u mem hfu hmem hg hbot hlt hm hn
  rw [handle_eval hfu hmem hg hbot hlt]
  have hform : shouldBan cfg env m
      = (textFlag env m || (imageFlag cfg env m && cfg.BAN_FOR_IMAGE_SPAM)) := by
    unfold shouldBan
    exact Bool.or_comm _ _
  have hiff : Event.banAttempt ∈ (evaluate cfg st env m u).events ↔
      (shouldBan cfg env m = true ∧ mem.can_restrict_members = true) := by
    unfold evaluate
    by_cases hgate : (textFlag env m || imageFlag cfg env m) = true
    · simp only [hgate, if_true]
      exact banAttempt_spamActions hm hn
        (not_action_mem_evalEvents cfg env m (toString u.id)).2.1
    · simp only [hgate, Bool.false_eq_true, if_false]
      constructor
      · intro h
        exact absurd h (not_action_mem_evalEvents cfg env m (toString u.id)).2.1
      · rintro ⟨hsb, -⟩
        exact absurd (shouldBan_spam hsb) hgate
  refine ⟨hiff, hform, ?_⟩
  intro hban htext h
  have := hiff.mp h
  rw [hform, htext, hban] at this
  simp at this

/-- A verdict that the decision rule collapses to spam. -/
def spamVerdict : Verdict := ⟨true, Rat.divInt 9 10, [], "ad"⟩

def envTextSpam : Env := ⟨some spamVerdict, none, none, some ⟨true, true⟩, true, true, true⟩

/-- Witness for C7: a concrete text-spam post leads to a ban attempt. -/
theorem C7_ban_policy_witness :
    Event.banAttempt ∈ (handle_message sampleCfg sampleState envTextSpam ⟨some sampleMsg⟩).events := by
  have h := C7_ban_policy sampleCfg sampleState envTextSpam sampleMsg sampleUser ⟨true, true⟩
    rfl (by decide) (Or.inl rfl) rfl (by decide) rfl (fun hh => rfl)
  exact h.1.mpr ⟨by decide, rfl⟩

theorem spamActions_noDelete {env : Env} {st : BotState} {chat_id : Int}
    {mt : String} {pre : List Event}
    (hm : env.member = some ⟨false, true⟩) (hsn : env.sendNoticeOk = true)
    (hd : Event.deleteAttempt ∉ pre) :
    Event.noticeNoDeletePermission ∈ (spamActions env st chat_id mt true pre).events ∧
    Event.deleteAttempt ∉ (spamActions env st chat_id mt true pre).events ∧
    Event.banAttempt ∈ (spamActions env st chat_id mt true pre).events ∧
    ∃ l, (spamActions env st chat_id mt true pre).actionLog = some l ∧
      LogEntry.noPermissionToDelete ∈ l ∧ LogEntry.deleted ∉ l ∧
      (if env.banOk = true then LogEntry.banned else LogEntry.failedBan) ∈ l := by
  unfold spamActions banStep
  rw [hm]
  by_cases hbo : env.banOk = true <;> simp [hsn, hbo, hd]

theorem spamActions_noRestrict {env : Env} {st : BotState} {chat_id : Int}
    {mt : String} {pre : List Event}
    (hm : env.member = some ⟨true, false⟩)
    (hn : Event.noticeNoDeletePermission ∉ pre) (hb : Event.banAttempt ∉ pre) :
    Event.deleteAttempt ∈ (spamActions env st chat_id mt true pre).events ∧
    Event.noticeNoDeletePermission ∉ (spamActions env st chat_id mt true pre).events ∧
    Event.banAttempt ∉ (spamActions env st chat_id mt true pre).events ∧
    ∃ l, (spamActions env st chat_id mt true pre).actionLog = some l ∧
      LogEntry.noPermissionToBan ∈ l := by
  unfold spamActions banStep
  rw [hm]
  by_cases hdo : env.deleteOk = true <;> simp [hdo, hn, hb]

/-- C8: with `should_ban` true, (a) when the bot cannot delete but can
restrict: the missing-delete-permission notice is sent, no delete is
attempted or recorded, and the ban is attempted and its result recorded;
(b) when the bot can delete but cannot restrict: the delete is attempted,
no notice is sent, no ban is attempted, and the missing ban permission is
recorded in the outcome. -/
theorem C8_permission_matrix :
    ∀ (cfg : Config) (st : BotState) (env : Env) (m : Message) (u : User),
      m.from_user = some u → m.chat_id ∈ allowed_chats →
      (m.chat_type = "group" ∨ m.chat_type = "supergroup") → u.is_bot = false →
      (st.safe_messages_count (toString u.id)).count < 2 →
      shouldBan cfg env m = true →
      ((env.member = some ⟨false, true⟩ → env.sendNoticeOk = true →
        (Event.noticeNoDeletePermission ∈ (handle_message cfg st env ⟨some m⟩).events ∧
         Event.deleteAttempt ∉ (handle_message cfg st env ⟨some m⟩).events ∧
         Event.banAttempt ∈ (handle_message cfg st env ⟨some m⟩).events ∧
         ∃ l, (handle_message cfg st env ⟨some m⟩).actionLog = some l ∧
           LogEntry.noPermissionToDelete ∈ l ∧ LogEntry.deleted ∉ l ∧
           (if env.banOk = true then LogEntry.banned else LogEntry.failedBan) ∈ l)) ∧
       (env.member = some ⟨true, false⟩ →
        (Event.deleteAttempt ∈ (handle_message cfg st env ⟨some m⟩).events ∧
         Event.noticeNoDeletePermission ∉ (handle_message cfg st env ⟨some m⟩).events ∧
         Event.banAttempt ∉ (handle_message cfg st env ⟨some m⟩).events ∧
         ∃ l, (handle_message cfg st env ⟨some m⟩).actionLog = some l ∧
           LogEntry.noPermissionToBan ∈ l))) := by
  intro cfg st env m u hfu hmem hg hbot hlt hsb
  rw [handle_eval hfu hmem hg hbot hlt]
  have hgate := shouldBan_spam hsb
  have hpre := not_action_mem_evalEvents cfg env m (toString u.id)
  constructor
  · intro hm hsn
    unfold evaluate
    simp only [hgate, if_true]
    rw [hsb]
    exact spamActions_noDelete hm hsn hpre.1
  · intro hm
    unfold evaluate
    simp only [hgate, if_true]
    rw [hsb]
    exact spamActions_noRestrict hm hpre.2.2 hpre.2.1

def envNoDelete : Env := ⟨some spamVerdict, none, none, some ⟨false, true⟩, true, true, true⟩

def envNoRestrict : Env := ⟨some spamVerdict, none, none, some ⟨true, false⟩, true, true, true⟩

/-- Witness for C8 at concrete permission environments. -/
theorem C8_permission_matrix_witness :
    (Event.noticeNoDeletePermission ∈
      (handle_message sampleCfg sampleState envNoDelete ⟨some sampleMsg⟩).events ∧
     Event.banAttempt ∈
      (handle_message sampleCfg sampleState envNoDelete ⟨some sampleMsg⟩).events) ∧
    (Event.deleteAttempt ∈
      (handle_message sampleCfg sampleState envNoRestrict ⟨some sampleMsg⟩).events ∧
     Event.banAttempt ∉
      (handle_message sampleCfg sampleState envNoRestrict ⟨some sampleMsg⟩).events) := by
  constructor
  · have h := (C8_permission_matrix sampleCfg sampleState envNoDelete sampleMsg sampleUser
      rfl (by decide) (Or.inl rfl) rfl (by decide) (by decide)).1 rfl rfl
    exact ⟨h.1, h.2.2.1⟩
  · have h := (C8_permission_matrix sampleCfg sampleState envNoRestrict sampleMsg sampleUser
      rfl (by decide) (Or.inl rfl) rfl (by decide) (by decide)).2 rfl
    exact ⟨h.1, h.2.2.1⟩

theorem photo_isEmpty_false {m : Message} (h : m.photo ≠ []) : m.photo.isEmpty = false := by
  cases hp : m.photo with
  | nil => exact absurd hp h
  | cons a l => rfl

theorem getFile_mem_evalEvents_iff {cfg : Config} {env : Env} {m : Message} {uid : String}
    (hphoto : m.photo ≠ []) :
    (Event.getFileCall uid ∈ evalEvents cfg env m uid ↔
      ¬ (cfg.MAX_IMAGE_SIZE_MB < sizeMB m)) := by
  unfold evalEvents
  have hne := photo_isEmpty_false hphoto
  by_cases hs : cfg.MAX_IMAGE_SIZE_MB < sizeMB m <;> simp [hne, hs]

theorem oracleImage_mem_evalEvents_iff {cfg : Config} {env : Env} {m : Message} {uid : String}
    (hphoto : m.photo ≠ []) :
    (Event.oracleImageCall uid ∈ evalEvents cfg env m uid ↔
      (¬ (cfg.MAX_IMAGE_SIZE_MB < sizeMB m) ∧ env.download ≠ none)) := by
  unfold evalEvents
  have hne := photo_isEmpty_false hphoto
  by_cases hs : cfg.MAX_IMAGE_SIZE_MB < sizeMB m <;>
    cases hd : env.download <;> simp [hne, hs]

theorem getFile_mem_evaluate_iff {cfg : Config} {st : BotState} {env : Env}
    {m : Message} {u : User} :
    (Event.getFileCall (toString u.id) ∈ (evaluate cfg st env m u).events ↔
     Event.getFileCall (toString u.id) ∈ evalEvents cfg env m (toString u.id)) := by
  constructor
  · intro h
    rcases mem_evaluate_events h with h | h | h | h
    · exact h
    all_goals simp at h
  · exact evalEvents_subset_evaluate

theorem oracleImage_mem_evaluate_iff {cfg : Config} {st : BotState} {env : Env}
    {m : Message} {u : User} :
    (Event.oracleImageCall (toString u.id) ∈ (evaluate cfg st env m u).events ↔
     Event.oracleImageCall (toString u.id) ∈ evalEvents cfg env m (toString u.id)) := by
  constructor
  · intro h
    rcases mem_evaluate_events h with h | h | h | h
    · exact h
    all_goals simp at h
  · exact evalEvents_subset_evaluate

/-- C10: on the evaluation path with a photo present, the download is
attempted iff the reported size in megabytes does not strictly exceed the
ceiling, and the image oracle is consulted iff additionally the download
returned; a missing (`None`) file size counts as size 0, so with a
non-negative ceiling such a photo is always downloaded and (when the
download succeeds) submitted to the image classifier. -/
theorem C10_size_ceiling :
    ∀ (cfg : Config) (st : BotState) (env : Env) (m : Message) (u : User),
      m.from_user = some u → m.chat_id ∈ allowed_chats →
      (m.chat_type = "group" ∨ m.chat_type = "supergroup") → u.is_bot = false →
      (st.safe_messages_count (toString u.id)).count < 2 →
      m.photo ≠ [] →
      ((Event.getFileCall (toString u.id) ∈ (handle_message cfg st env ⟨some m⟩).events ↔
        ¬ (cfg.MAX_IMAGE_SIZE_MB < sizeMB m)) ∧
       (Event.oracleImageCall (toString u.id) ∈ (handle_message cfg st env ⟨some m⟩).events ↔
        (¬ (cfg.MAX_IMAGE_SIZE_MB < sizeMB m) ∧ env.download ≠ none)) ∧
       ((m.photo.getLastD ⟨"", none⟩).file_size = none → sizeMB m = 0) ∧
       ((m.photo.getLastD ⟨"", none⟩).file_size = none → 0 ≤ cfg.MAX_IMAGE_SIZE_MB →
        Event.getFileCall (toString u.id) ∈ (handle_message cfg st env ⟨some m⟩).events ∧
        (env.download ≠ none →
          Event.oracleImageCall (toString u.id) ∈
            (handle_message cfg st env ⟨some m⟩).events))) := by
  intro cfg st env m u hfu hmem hg hbot hlt hphoto
  rw [handle_eval hfu hmem hg hbot hlt]
  have h1 := @getFile_mem_evaluate_iff cfg st env m u
  have h2 := @oracleImage_mem_evaluate_iff cfg st env m u
  have hsz : (m.photo.getLastD ⟨"", none⟩).file_size = none → sizeMB m = 0 := by
    intro hfs
    unfold sizeMB
    rw [hfs]
    decide
  refine ⟨h1.trans (getFile_mem_evalEvents_iff hphoto),
    h2.trans (oracleImage_mem_evalEvents_iff hphoto), hsz, ?_⟩
  intro hfs hmax
  have hns : ¬ (cfg.MAX_IMAGE_SIZE_MB < sizeMB m) := by
    rw [hsz hfs]
    exact not_lt.mpr hmax
  exact ⟨(h1.trans (getFile_mem_evalEvents_iff hphoto)).mpr hns,
    fun hd => (h2.trans (oracleImage_mem_evalEvents_iff hphoto)).mpr ⟨hns, hd⟩⟩

def photoMsg : Message := ⟨some sampleUser, -4684100667, none, some "pic", 2, [⟨"f1", none⟩], "group"⟩

def envImage : Env := ⟨none, none, some [1, 2, 3], some ⟨true, true⟩, true, true, true⟩

/-- Witness for C10: a photo with no reported file size is downloaded and
submitted to the image oracle. -/
theorem C10_size_ceiling_witness :
    Event.getFileCall (toString sampleUser.id) ∈
      (handle_message sampleCfg sampleState envImage ⟨some photoMsg⟩).events ∧
    Event.oracleImageCall (toString sampleUser.id) ∈
      (handle_message sampleCfg sampleState envImage ⟨some photoMsg⟩).events := by
  have h := C10_size_ceiling sampleCfg sampleState envImage photoMsg sampleUser
    rfl (by decide) (Or.inl rfl) rfl (by decide) (by decide)
  have h4 := h.2.2.2 rfl (by decide)
  exact ⟨h4.1, h4.2 (by decide)⟩

/-! ## Context-window recording (C4) -/

theorem appendText_window_self (st : BotState) (c : Int) (t : String) :
    (appendText st c t).recent_messages c =
      (if t = "" then st.recent_messages c else dequeAppend 5 (st.recent_messages c) t) := by
  unfold appendText
  split_ifs <;> simp

theorem appendText_window_other (st : BotState) (c : Int) (t : String) (c' : Int)
    (h : c' ≠ c) :
    (appendText st c t).recent_messages c' = st.recent_messages c' := by
  unfold appendText
  split_ifs <;> simp [h]

theorem deleted_not_mem_banStep (env : Env) (sb cr : Bool) :
    LogEntry.deleted ∉ (banStep env sb cr).1 := by
  unfold banStep
  split_ifs <;> by_cases hb : env.banOk = true <;> simp_all

theorem handle_skip {cfg : Config} {st : BotState} {env : Env} {m : Message} {u : User}
    (hfu : m.from_user = some u) (hmem : m.chat_id ∈ allowed_chats)
    (hg : m.chat_type = "group" ∨ m.chat_type = "supergroup") (hbot : u.is_bot = false)
    (hge : ¬ (st.safe_messages_count (toString u.id)).count < 2) :
    handle_message cfg st env ⟨some m⟩ =
      { state := appendText st m.chat_id (effectiveText m),
        events := [], actionLog := none, exc := none } := by
  obtain ⟨fu, chat_id, text, caption, mid, photo, ctype⟩ := m
  have hfu' : fu = some u := hfu
  subst hfu'
  rcases hg with hg | hg <;> simp only at hg <;> subst hg <;>
    simp [handle_message, hmem, hbot, hge]

/-- C4 amended: for every processed post (allow-listed group post from a
non-bot sender) on which the handler does not raise, only that
conversation's window changes; a spam post whose delete succeeded is
recorded as the placeholder text, and every other post is recorded as its
literal textual content when non-empty (unchanged window when empty). -/
theorem C4_amended :
    ∀ (cfg : Config) (st : BotState) (env : Env) (m : Message) (u : User),
      m.from_user = some u → m.chat_id ∈ allowed_chats →
      (m.chat_type = "group" ∨ m.chat_type = "supergroup") → u.is_bot = false →
      (handle_message cfg st env ⟨some m⟩).exc = none →
      ((∀ c, c ≠ m.chat_id →
        (handle_message cfg st env ⟨some m⟩).state.recent_messages c
          = st.recent_messages c) ∧
       ((∃ l, (handle_message cfg st env ⟨some m⟩).actionLog = some l ∧
          LogEntry.deleted ∈ l) →
        (handle_message cfg st env ⟨some m⟩).state.recent_messages m.chat_id
          = dequeAppend 5 (st.recent_messages m.chat_id) "here was a spam message") ∧
       (¬ (∃ l, (handle_message cfg st env ⟨some m⟩).actionLog = some l ∧
          LogEntry.deleted ∈ l) →
        (handle_message cfg st env ⟨some m⟩).state.recent_messages m.chat_id
          = (if effectiveText m = "" then st.recent_messages m.chat_id
             else dequeAppend 5 (st.recent_messages m.chat_id) (effectiveText m)))) := by
  intro cfg st env m u hfu hmem hg hbot hexc
  by_cases hlt : (st.safe_messages_count (toString u.id)).count < 2
  · rw [handle_eval hfu hmem hg hbot hlt] at hexc ⊢
    unfold evaluate at hexc ⊢
    by_cases hgate : (textFlag env m || imageFlag cfg env m) = true
    · simp only [hgate, if_true] at hexc ⊢
      unfold spamActions at hexc ⊢
      revert hexc
      cases env.member with
      | none => intro hexc; simp at hexc
      | some mem =>
        intro hexc
        by_cases hcd : mem.can_delete_messages = true
        · by_cases hdo : env.deleteOk = true <;>
            simp only [hcd, hdo, if_true, Bool.false_eq_true, if_false] <;>
            refine ⟨fun c hc => appendText_window_other _ _ _ _ hc, ?_, ?_⟩
          · intro _
            rw [appendText_window_self]
            simp
          · intro hno
            exact absurd ⟨_, rfl, by simp⟩ hno
          · intro hdel
            obtain ⟨l, hl, hmem2⟩ := hdel
            obtain rfl : LogEntry.failedDelete :: (banStep env (shouldBan cfg env m)
                mem.can_restrict_members).1 = l := by
              simpa using hl
            rcases List.mem_cons.mp hmem2 with h | h
            · cases h
            · exact absurd h (deleted_not_mem_banStep env _ _)
          · intro _
            exact appendText_window_self st m.chat_id (effectiveText m)
        · by_cases hsn : env.sendNoticeOk = true
          · simp only [hcd, hsn, Bool.false_eq_true, if_false, if_true]
            refine ⟨fun c hc => appendText_window_other _ _ _ _ hc, ?_, ?_⟩
            · intro hdel
              obtain ⟨l, hl, hmem2⟩ := hdel
              obtain rfl : LogEntry.noPermissionToDelete :: (banStep env (shouldBan cfg env m)
                  mem.can_restrict_members).1 = l := by
                simpa using hl
              rcases List.mem_cons.mp hmem2 with h | h
              · cases h
              · exact absurd h (deleted_not_mem_banStep env _ _)
            · intro _
              exact appendText_window_self st m.chat_id (effectiveText m)
          · simp only [hcd, hsn, Bool.false_eq_true, if_false] at hexc
            cases hexc
    · simp only [hgate, Bool.false_eq_true, if_false] at hexc ⊢
      refine ⟨fun c hc => appendText_window_other _ _ _ _ hc, ?_, ?_⟩
      · rintro ⟨l, hl, -⟩
        cases hl
      · intro _
        exact appendText_window_self _ m.chat_id (effectiveText m)
  · rw [handle_skip hfu hmem hg hbot hlt]
    refine ⟨fun c hc => appendText_window_other _ _ _ _ hc, ?_, ?_⟩
    · rintro ⟨l, hl, -⟩
      cases hl
    · intro _
      exact appendText_window_self st m.chat_id (effectiveText m)

/-- Counterexample to C4 as stated: a concrete spam text post whose
delete succeeded is recorded in the window as the placeholder, not as its
literal textual content. -/
theorem C4_counterexample :
    (handle_message sampleCfg sampleState envTextSpam
        ⟨some sampleMsg⟩).state.recent_messages (-4684100667)
      = ["here was a spam message"] ∧
    effectiveText sampleMsg = "hello there" ∧
    ("here was a spam message" : String) ≠ "hello there" := by
  refine ⟨by decide, rfl, by decide⟩

/-- Witness for the amended C4 at a concrete non-spam input: the literal
text is appended. -/
theorem C4_amended_witness :
    (handle_message sampleCfg sampleState envAllFail
        ⟨some sampleMsg⟩).state.recent_messages (-4684100667) = ["hello there"] := by
  have h := (C4_amended sampleCfg sampleState envAllFail sampleMsg sampleUser
    rfl (by decide) (Or.inl rfl) rfl (by decide)).2.2 (by decide)
  simpa using h

/-! ## Sequencer failure behaviour (C5) -/

theorem banStep_failed {env : Env} {sb cr : Bool} (hbo : env.banOk = false)
    (h : Event.banAttempt ∈ (banStep env sb cr).2) :
    (banStep env sb cr).1 = [LogEntry.failedBan] := by
  unfold banStep at h ⊢
  split_ifs at h ⊢ <;> simp_all

theorem spamActions_events_deleteOk (st : BotState) (chat_id : Int) (mt : String)
    (sb : Bool) (pre : List Event)
    (otext oimg : Option Verdict) (dl : Option (List Nat)) (mb : Option ChatMember)
    (dok sok bok b : Bool) :
    (spamActions ⟨otext, oimg, dl, mb, b, sok, bok⟩ st chat_id mt sb pre).events
      = (spamActions ⟨otext, oimg, dl, mb, dok, sok, bok⟩ st chat_id mt sb pre).events := by
  unfold spamActions
  cases mb with
  | none => rfl
  | some mem =>
    by_cases hcd : mem.can_delete_messages = true <;>
      by_cases hsn : sok = true <;>
      simp [hcd, hsn, banStep]

theorem evaluate_events_deleteOk (cfg : Config) (st : BotState) (m : Message) (u : User)
    (otext oimg : Option Verdict) (dl : Option (List Nat)) (mb : Option ChatMember)
    (dok sok bok b : Bool) :
    (evaluate cfg st ⟨otext, oimg, dl, mb, b, sok, bok⟩ m u).events
      = (evaluate cfg st ⟨otext, oimg, dl, mb, dok, sok, bok⟩ m u).events := by
  simp only [evaluate]
  have hT : textFlag ⟨otext, oimg, dl, mb, b, sok, bok⟩ m
      = textFlag ⟨otext, oimg, dl, mb, dok, sok, bok⟩ m := rfl
  have hI : imageFlag cfg ⟨otext, oimg, dl, mb, b, sok, bok⟩ m
      = imageFlag cfg ⟨otext, oimg, dl, mb, dok, sok, bok⟩ m := rfl
  have hS : shouldBan cfg ⟨otext, oimg, dl, mb, b, sok, bok⟩ m
      = shouldBan cfg ⟨otext, oimg, dl, mb, dok, sok, bok⟩ m := rfl
  have hE : evalEvents cfg ⟨otext, oimg, dl, mb, b, sok, bok⟩ m (toString u.id)
      = evalEvents cfg ⟨otext, oimg, dl, mb, dok, sok, bok⟩ m (toString u.id) := rfl
  rw [hT, hI, hS, hE]
  by_cases hgate : (textFlag ⟨otext, oimg, dl, mb, dok, sok, bok⟩ m
      || imageFlag cfg ⟨otext, oimg, dl, mb, dok, sok, bok⟩ m) = true
  · simp only [hgate, if_true]
    exact spamActions_events_deleteOk st m.chat_id (effectiveText m) _ _ otext oimg dl mb dok sok bok b
  · simp only [hgate, Bool.false_eq_true, if_false]

theorem handle_events_deleteOk (cfg : Config) (st : BotState) (up : Update)
    (otext oimg : Option Verdict) (dl : Option (List Nat)) (mb : Option ChatMember)
    (dok sok bok b : Bool) :
    (handle_message cfg st ⟨otext, oimg, dl, mb, b, sok, bok⟩ up).events
      = (handle_message cfg st ⟨otext, oimg, dl, mb, dok, sok, bok⟩ up).events := by
  obtain ⟨msg⟩ := up
  cases msg with
  | none => rfl
  | some message =>
    obtain ⟨fu, chat_id, text, caption, mid, photo, ctype⟩ := message
    cases fu with
    | none => rfl
    | some from_user =>
      by_cases h1 : chat_id ∈ allowed_chats
      · by_cases h3 : from_user.is_bot = true
        · simp [handle_message, h1, h3]
        · have hb : from_user.is_bot = false := by simpa using h3
          by_cases h2 : (ctype = "group" ∨ ctype = "supergroup")
          · by_cases h4 : (st.safe_messages_count (toString from_user.id)).count < 2
            · have he1 := @handle_eval cfg st ⟨otext, oimg, dl, mb, b, sok, bok⟩
                ⟨some from_user, chat_id, text, caption, mid, photo, ctype⟩
                from_user rfl h1 h2 hb h4
              have he2 := @handle_eval cfg st ⟨otext, oimg, dl, mb, dok, sok, bok⟩
                ⟨some from_user, chat_id, text, caption, mid, photo, ctype⟩
                from_user rfl h1 h2 hb h4
              rw [he1, he2]
              exact evaluate_events_deleteOk cfg st _ from_user otext oimg dl mb dok sok bok b
            · have he1 := @handle_skip cfg st ⟨otext, oimg, dl, mb, b, sok, bok⟩
                ⟨some from_user, chat_id, text, caption, mid, photo, ctype⟩
                from_user rfl h1 h2 hb h4
              have he2 := @handle_skip cfg st ⟨otext, oimg, dl, mb, dok, sok, bok⟩
                ⟨some from_user, chat_id, text, caption, mid, photo, ctype⟩
                from_user rfl h1 h2 hb h4
              rw [he1, he2]
          · have hg : ctype ≠ "group" := fun hh => h2 (Or.inl hh)
            have hs : ctype ≠ "supergroup" := fun hh => h2 (Or.inr hh)
            simp [handle_message, h1, hg, hs]
      · simp [handle_message, h1]

/-- C5 amended: provided the capability query answers and the
missing-delete-permission notice goes through, the handler never raises;
the trace of moderation calls is unaffected by whether the delete
succeeds (a failed delete never prevents the ban attempt); and each
failed delete or ban attempt is captured in the recorded outcome.  (As
stated in full, C5 is refuted by `C5_counterexample`: a failure of the
capability query or of the notice propagates out of the handler.) -/
theorem C5_amended :
    (∀ (cfg : Config) (st : BotState) (env : Env) (up : Update),
      env.member ≠ none → env.sendNoticeOk = true →
      (handle_message cfg st env up).exc = none) ∧
    (∀ (cfg : Config) (st : BotState) (env : Env) (up : Update) (b : Bool),
      (handle_message cfg st { env with deleteOk := b } up).events
        = (handle_message cfg st env up).events) ∧
    (∀ (cfg : Config) (st : BotState) (env : Env) (up : Update),
      env.deleteOk = false →
      Event.deleteAttempt ∈ (handle_message cfg st env up).events →
      ∃ l, (handle_message cfg st env up).actionLog = some l ∧
        LogEntry.failedDelete ∈ l) ∧
    (∀ (cfg : Config) (st : BotState) (env : Env) (up : Update),
      env.banOk = false →
      Event.banAttempt ∈ (handle_message cfg st env up).events →
      ∃ l, (handle_message cfg st env up).actionLog = some l ∧
        LogEntry.failedBan ∈ l) := by
  refine ⟨?_, ?_, ?_, ?_⟩
  · intro cfg st env up hm hsn
    rcases handle_message_cases cfg st env up with
      he | ⟨m, u, _, _, _, _, _, (⟨_, heq⟩ | ⟨_, heq⟩)⟩
    · rw [he]
    · rw [heq]
      unfold evaluate
      by_cases hgate : (textFlag env m || imageFlag cfg env m) = true
      · simp only [hgate, if_true]
        unfold spamActions
        cases henv : env.member with
        | none => exact absurd henv hm
        | some mem =>
          by_cases hcd : mem.can_delete_messages = true <;> simp [hcd, hsn]
      · simp only [hgate, Bool.false_eq_true, if_false]
    · rw [heq]
  · intro cfg st env up b
    obtain ⟨otext, oimg, dl, mb, dok, sok, bok⟩ := env
    exact handle_events_deleteOk cfg st up otext oimg dl mb dok sok bok b
  · intro cfg st env up hdo hmem
    rcases handle_message_cases cfg st env up with
      he | ⟨m, u, _, _, _, _, _, (⟨_, heq⟩ | ⟨_, heq⟩)⟩
    · rw [he] at hmem; simp at hmem
    · rw [heq] at hmem ⊢
      unfold evaluate at hmem ⊢
      by_cases hgate : (textFlag env m || imageFlag cfg env m) = true
      · simp only [hgate, if_true] at hmem ⊢
        unfold spamActions at hmem ⊢
        revert hmem
        cases env.member with
        | none =>
          intro hmem
          exact absurd hmem (not_action_mem_evalEvents cfg env m (toString u.id)).1
        | some mem =>
          intro hmem
          by_cases hcd : mem.can_delete_messages = true
          · simp only [hcd, if_true, hdo, Bool.false_eq_true, if_false]
            exact ⟨_, rfl, by simp⟩
          · by_cases hsn : env.sendNoticeOk = true <;>
              simp only [hcd, hsn, Bool.false_eq_true, if_false, if_true] at hmem <;>
              rcases List.mem_append.mp hmem with h | h
            · rcases List.mem_append.mp h with h | h
              · exact absurd h (not_action_mem_evalEvents cfg env m (toString u.id)).1
              · simp at h
            · rcases banStep_events env (shouldBan cfg env m) mem.can_restrict_members with
                hb | hb <;> rw [hb] at h <;> simp at h
            · exact absurd h (not_action_mem_evalEvents cfg env m (toString u.id)).1
            · simp at h
      · simp only [hgate, Bool.false_eq_true, if_false] at hmem
        exact absurd hmem (not_action_mem_evalEvents cfg env m (toString u.id)).1
    · rw [heq] at hmem
      simp at hmem
  · intro cfg st env up hbo hmem
    rcases handle_message_cases cfg st env up with
      he | ⟨m, u, _, _, _, _, _, (⟨_, heq⟩ | ⟨_, heq⟩)⟩
    · rw [he] at hmem; simp at hmem
    · rw [heq] at hmem ⊢
      unfold evaluate at hmem ⊢
      by_cases hgate : (textFlag env m || imageFlag cfg env m) = true
      · simp only [hgate, if_true] at hmem ⊢
        unfold spamActions at hmem ⊢
        revert hmem
        cases env.member with
        | none =>
          intro hmem
          exact absurd hmem (not_action_mem_evalEvents cfg env m (toString u.id)).2.1
        | some mem =>
          intro hmem
          by_cases hcd : mem.can_delete_messages = true
          · simp only [hcd, if_true] at hmem ⊢
            rcases List.mem_append.mp hmem with h | h
            · rcases List.mem_append.mp h with h | h
              · exact absurd h (not_action_mem_evalEvents cfg env m (toString u.id)).2.1
              · simp at h
            · refine ⟨_, rfl, ?_⟩
              rw [banStep_failed hbo h]
              simp
          · by_cases hsn : env.sendNoticeOk = true <;>
              simp only [hcd, hsn, Bool.false_eq_true, if_false, if_true] at hmem ⊢ <;>
              rcases List.mem_append.mp hmem with h | h
            · rcases List.mem_append.mp h with h | h
              · exact absurd h (not_action_mem_evalEvents cfg env m (toString u.id)).2.1
              · simp at h
            · refine ⟨_, rfl, ?_⟩
              rw [banStep_failed hbo h]
              simp
            · exact absurd h (not_action_mem_evalEvents cfg env m (toString u.id)).2.1
            · simp at h
      · simp only [hgate, Bool.false_eq_true, if_false] at hmem
        exact absurd hmem (not_action_mem_evalEvents cfg env m (toString u.id)).2.1
    · rw [heq] at hmem
      simp at hmem

def envNoticeFail : Env := ⟨some spamVerdict, none, none, some ⟨false, true⟩, true, false, true⟩

/-- Counterexample to C5 as stated: on a concrete spam post where the bot
lacks the delete permission and the missing-permission notice raises, the
exception propagates out of the sequencer, and the ban is never attempted
even though `should_ban` holds and the bot can restrict. -/
theorem C5_counterexample :
    (handle_message sampleCfg sampleState envNoticeFail ⟨some sampleMsg⟩).exc ≠ none ∧
    Event.banAttempt ∉ (handle_message sampleCfg sampleState envNoticeFail ⟨some sampleMsg⟩).events ∧
    shouldBan sampleCfg envNoticeFail sampleMsg = true ∧
    envNoticeFail.member = some ⟨false, true⟩ := by
  refine ⟨by decide, by decide, by decide, rfl⟩

/-- Witness for the amended C5 at concrete inputs. -/
theorem C5_amended_witness :
    (handle_message sampleCfg sampleState envTextSpam ⟨some sampleMsg⟩).exc = none ∧
    (handle_message sampleCfg sampleState { envTextSpam with deleteOk := false }
        ⟨some sampleMsg⟩).events
      = (handle_message sampleCfg sampleState envTextSpam ⟨some sampleMsg⟩).events := by
  exact ⟨C5_amended.1 sampleCfg sampleState envTextSpam ⟨some sampleMsg⟩ (by decide) rfl,
    C5_amended.2.1 sampleCfg sampleState envTextSpam ⟨some sampleMsg⟩ false⟩
